import Mathlib

/-!
Shallow embedding of the blog backend (FastAPI + SQLAlchemy): the entities
`User`, `Post`, `Comment` of src/src/database/models.py, the pydantic schemas
of src/src/database/schemas.py, and the request handlers of
src/src/routes/auth.py, users.py, posts.py and comments.py.

The database session is modelled as explicit state: a `DB` value holding the
three row lists.  A handler that raises `HTTPException` before any mutation is
modelled as returning the unchanged `DB` paired with an error value.
Generated inputs (uuid4 identifiers, bcrypt salts, `datetime.utcnow`) are
passed as explicit parameters.  The credential middleware
(src/middleware/auth.py and src/middleware/dependencies.py) is imported by the
routes but is not among the sources; those functions are modelled from the
spec and their doc comments say so.
-/

namespace BlogApp

/-- Modelled from the spec: `get_password_hash` lives in
src/middleware/auth.py, which is missing from the sources.  Spec section 4.1:
a deterministic one-way transform with a per-call random salt embedded in the
output.  The digest is represented injectively; one-wayness is a computational
property outside the embedding. -/
structure PasswordHash where
  salt : Nat
  digest : String
  deriving DecidableEq

/-- Modelled from the spec: hashing embeds the per-call salt in the output. -/
def get_password_hash (salt : Nat) (password : String) : PasswordHash :=
  { salt := salt, digest := password }

/-- Modelled from the spec: `verify_password` (src/middleware/auth.py is
missing from the sources); true iff the password matches the hash, checked by
re-hashing with the embedded salt. -/
def verify_password (password : String) (h : PasswordHash) : Bool :=
  (get_password_hash h.salt password).digest == h.digest

/-- JWT payload: subject identifier and expiration timestamp. -/
structure TokenPayload where
  sub : String
  exp : Nat
  deriving DecidableEq

/-- Modelled from the spec: a symmetric signature binding the secret to the
signed payload, represented injectively. -/
structure Signature where
  secret : Nat
  signed : TokenPayload
  deriving DecidableEq

/-- Modelled from the spec: signing with the process-wide symmetric secret. -/
def sign (secret : Nat) (p : TokenPayload) : Signature :=
  { secret := secret, signed := p }

/-- A signed token: payload plus signature. -/
structure SignedToken where
  payload : TokenPayload
  sig : Signature
  deriving DecidableEq

/-- Modelled from the spec: `create_access_token` (src/middleware/auth.py is
missing from the sources); spec section 4.1: a signed token encoding the
subject identifier and an expiration set to now + configured TTL in minutes. -/
def create_access_token (secret ttlMinutes now : Nat) (sub : String) : SignedToken :=
  { payload := { sub := sub, exp := now + ttlMinutes * 60 },
    sig := sign secret { sub := sub, exp := now + ttlMinutes * 60 } }

inductive TokenError where
  | invalidToken
  deriving DecidableEq

/-- Modelled from the spec: `verify_token` (spec section 4.1, middleware not
among the sources): fails with `InvalidToken` if the signature is invalid or
the token expired; otherwise returns the encoded subject identifier. -/
def verify_token (secret now : Nat) (t : SignedToken) : Except TokenError String :=
  if t.sig = sign secret t.payload then
    if now < t.payload.exp then .ok t.payload.sub
    else .error .invalidToken
  else .error .invalidToken

/-- Row of the `users` table (src/src/database/models.py). -/
structure User where
  id : String
  email : String
  password : PasswordHash
  name : String
  profile_picture : Option String
  created_at : Nat
  deriving DecidableEq

/-- Row of the `posts` table (src/src/database/models.py). -/
structure Post where
  id : String
  title : String
  content : String
  excerpt : Option String
  category : Option String
  author_id : String
  created_at : Nat
  updated_at : Nat
  deriving DecidableEq

/-- Row of the `comments` table (src/src/database/models.py). -/
structure Comment where
  id : String
  content : String
  post_id : String
  author_id : String
  created_at : Nat
  updated_at : Nat
  deriving DecidableEq

/-- The store: the three tables of the relational database. -/
structure DB where
  users : List User
  posts : List Post
  comments : List Comment
  deriving DecidableEq

/-- `db.query(User).filter(User.id == uid).first()`. -/
def DB.findUser (db : DB) (uid : String) : Option User :=
  db.users.find? (fun u => u.id == uid)

/-- `db.query(User).filter(User.email == email).first()`. -/
def DB.findUserByEmail (db : DB) (email : String) : Option User :=
  db.users.find? (fun u => u.email == email)

/-- `db.query(Post).filter(Post.id == post_id).first()`. -/
def DB.findPost (db : DB) (pid : String) : Option Post :=
  db.posts.find? (fun p => p.id == pid)

/-- `db.query(Comment).filter(Comment.id == comment_id).first()`. -/
def DB.findComment (db : DB) (cid : String) : Option Comment :=
  db.comments.find? (fun c => c.id == cid)

/-- `HTTPException` as raised by the handlers, by status code. -/
inductive ApiError where
  | notFound (detail : String)
  | forbidden (detail : String)
  | conflict (detail : String)
  | unauthenticated (detail : String)
  deriving DecidableEq

/-- HTTP status code of each error (404, 403, 400, 401). -/
def ApiError.status : ApiError → Nat
  | .notFound _ => 404
  | .forbidden _ => 403
  | .conflict _ => 400
  | .unauthenticated _ => 401

/-- pydantic `UserResponse`. -/
structure UserResponse where
  id : String
  email : String
  name : String
  profile_picture : Option String
  created_at : Nat
  deriving DecidableEq

/-- pydantic `Token`. -/
structure Token where
  access_token : SignedToken
  token_type : String := "bearer"
  user : UserResponse
  deriving DecidableEq

/-- pydantic `PostResponse`; `author_profile_picture` defaults to `none`
exactly as the pydantic field defaults to `None`. -/
structure PostResponse where
  title : String
  content : String
  excerpt : Option String
  category : Option String
  id : String
  author_id : String
  author_name : String
  author_profile_picture : Option String := none
  created_at : Nat
  updated_at : Nat
  deriving DecidableEq

/-- pydantic `CommentResponse`; `author_profile_picture` defaults to `none`. -/
structure CommentResponse where
  content : String
  id : String
  post_id : String
  author_id : String
  author_name : String
  author_profile_picture : Option String := none
  created_at : Nat
  updated_at : Nat
  deriving DecidableEq

/-- pydantic `MessageResponse`. -/
structure MessageResponse where
  message : String
  deriving DecidableEq

/-- pydantic `UserCreate` (password min length is checked by the framework
before the handler runs). -/
structure UserCreate where
  email : String
  name : String
  password : String
  deriving DecidableEq

/-- pydantic `UserUpdate`: absent fields arrive as `None`. -/
structure UserUpdate where
  name : Option String
  profile_picture : Option String
  deriving DecidableEq

/-- pydantic `PostCreate`. -/
structure PostCreate where
  title : String
  content : String
  excerpt : Option String
  category : Option String
  deriving DecidableEq

/-- pydantic `PostUpdate`: every field optional, absent fields arrive as
`None`. -/
structure PostUpdate where
  title : Option String
  content : Option String
  excerpt : Option String
  category : Option String
  deriving DecidableEq

/-- pydantic `CommentCreate`. -/
structure CommentCreate where
  content : String
  deriving DecidableEq

/-- pydantic `CommentUpdate`: content is required. -/
structure CommentUpdate where
  content : String
  deriving DecidableEq

/-- The `UserResponse(...)` construction repeated in auth.py and users.py. -/
def userResponseOf (u : User) : UserResponse :=
  { id := u.id, email := u.email, name := u.name,
    profile_picture := u.profile_picture, created_at := u.created_at }

/-- `post.author.name`: the relationship lookup by foreign key.  In the source
the relationship always resolves (states satisfy referential integrity); the
empty-string branch stands for the unreachable missing-author case, and
theorems about the author's identity take the author's presence as a
hypothesis. -/
def DB.authorName (db : DB) (aid : String) : String :=
  match db.findUser aid with
  | some u => u.name
  | none => ""

/-- `comment.author.profile_picture`: the relationship lookup by foreign
key (see `DB.authorName` about the missing-author branch). -/
def DB.authorPicture (db : DB) (aid : String) : Option String :=
  match db.findUser aid with
  | some u => u.profile_picture
  | none => none

/-- The `PostResponse(...)` construction repeated in `get_all_posts`,
`get_post_by_id` and `update_post` of posts.py: `author_name` comes from
`post.author.name` and no `author_profile_picture` argument is passed, so that
field takes its pydantic default `None`. -/
def postResponseOf (db : DB) (post : Post) : PostResponse :=
  { id := post.id, title := post.title, content := post.content,
    excerpt := post.excerpt, category := post.category,
    author_id := post.author_id, author_name := db.authorName post.author_id,
    created_at := post.created_at, updated_at := post.updated_at }

/-- The `PostResponse(...)` construction of `get_user_posts` in users.py:
`author_name` comes from `current_user.name` and no `author_profile_picture`
argument is passed. -/
def selfPostResponseOf (current_user : User) (post : Post) : PostResponse :=
  { id := post.id, title := post.title, content := post.content,
    excerpt := post.excerpt, category := post.category,
    author_id := post.author_id, author_name := current_user.name,
    created_at := post.created_at, updated_at := post.updated_at }

/-- The `CommentResponse(...)` construction of `get_comments_by_post` and
`update_comment` in comments.py: author name and profile picture both come
from the `comment.author` relationship. -/
def commentResponseOf (db : DB) (comment : Comment) : CommentResponse :=
  { id := comment.id, content := comment.content, post_id := comment.post_id,
    author_id := comment.author_id,
    author_name := db.authorName comment.author_id,
    author_profile_picture := db.authorPicture comment.author_id,
    created_at := comment.created_at, updated_at := comment.updated_at }

/-- The user row inserted by `register` of src/src/routes/auth.py: freshly
generated identifier, hashed password, `profile_picture` left at its nullable
column default, `created_at` at the column default `utcnow`. -/
def regUser (user_data : UserCreate) (user_id : String) (salt now : Nat) : User :=
  { id := user_id, email := user_data.email,
    password := get_password_hash salt user_data.password,
    name := user_data.name, profile_picture := none, created_at := now }

/-- `register` of src/src/routes/auth.py: reject an already registered email
with 400, otherwise insert the new user (uuid4 identifier and hashing salt
passed explicitly) and return a fresh token for it. -/
def register (db : DB) (user_data : UserCreate) (user_id : String) (salt : Nat)
    (secret ttlMinutes now : Nat) : DB × Except ApiError Token :=
  match db.findUserByEmail user_data.email with
  | some _ => (db, .error (.conflict "Email already registered"))
  | none =>
    let new_user : User := regUser user_data user_id salt now
    ({ db with users := db.users ++ [new_user] },
     .ok { access_token := create_access_token secret ttlMinutes now new_user.id,
           user := userResponseOf new_user })

/-- `login` of src/src/routes/auth.py: 401 unless a user matches the email and
the password verifies; otherwise a fresh token. -/
def login (db : DB) (email password : String) (secret ttlMinutes now : Nat) :
    Except ApiError Token :=
  match db.findUserByEmail email with
  | none => .error (.unauthenticated "Invalid email or password")
  | some user =>
    if verify_password password user.password then
      .ok { access_token := create_access_token secret ttlMinutes now user.id,
            user := userResponseOf user }
    else .error (.unauthenticated "Invalid email or password")

/-- Modelled from the spec: the Authorization Guard `get_current_user`
(src/middleware/dependencies.py is missing from the sources).  Spec section
4.2: fail 401 when `verify_token` fails, then load the User by the decoded
subject identifier, failing 401 when no such User exists. -/
def get_current_user (secret now : Nat) (db : DB) (t : SignedToken) :
    Except ApiError User :=
  match verify_token secret now t with
  | .error _ => .error (.unauthenticated "Could not validate credentials")
  | .ok uid =>
    match db.findUser uid with
    | some u => .ok u
    | none => .error (.unauthenticated "Could not validate credentials")

/-- The field-by-field update block of `update_user_profile` (users.py lines
38-41): apply only the provided fields. -/
def applyUserUpdate (current_user : User) (user_data : UserUpdate) : User :=
  let u1 :=
    match user_data.name with
    | some n => { current_user with name := n }
    | none => current_user
  match user_data.profile_picture with
  | some p => { u1 with profile_picture := p }
  | none => u1

/-- `update_user_profile` of src/src/routes/users.py: apply only the provided
fields to the authenticated user and commit. -/
def update_user_profile (db : DB) (current_user : User) (user_data : UserUpdate) :
    DB × UserResponse :=
  let u2 := applyUserUpdate current_user user_data
  ({ db with users := db.users.map (fun q => if q.id == current_user.id then u2 else q) },
   userResponseOf u2)

/-- `ORDER BY created_at DESC` on posts: `a` may come before `b` when `a` was
created no earlier than `b`. -/
def createdDesc (a b : Post) : Prop :=
  b.created_at ≤ a.created_at

instance : DecidableRel createdDesc :=
  fun a b => inferInstanceAs (Decidable (b.created_at ≤ a.created_at))

instance : IsTotal Post createdDesc :=
  ⟨fun a b => Nat.le_total b.created_at a.created_at⟩

instance : IsTrans Post createdDesc :=
  ⟨fun _ _ _ h₁ h₂ => Nat.le_trans h₂ h₁⟩

/-- `ORDER BY created_at DESC` on comments. -/
def commentCreatedDesc (a b : Comment) : Prop :=
  b.created_at ≤ a.created_at

instance : DecidableRel commentCreatedDesc :=
  fun a b => inferInstanceAs (Decidable (b.created_at ≤ a.created_at))

instance : IsTotal Comment commentCreatedDesc :=
  ⟨fun a b => Nat.le_total b.created_at a.created_at⟩

instance : IsTrans Comment commentCreatedDesc :=
  ⟨fun _ _ _ h₁ h₂ => Nat.le_trans h₂ h₁⟩

/-- `get_user_posts` of src/src/routes/users.py: the caller's posts, newest
created first. -/
def get_user_posts (db : DB) (current_user : User) : List PostResponse :=
  (List.insertionSort createdDesc
      (db.posts.filter (fun p => p.author_id == current_user.id))).map
    (selfPostResponseOf current_user)

/-- `create_post` of src/src/routes/posts.py: insert a post owned by the
caller (uuid4 identifier passed explicitly; `created_at` and `updated_at`
take the column default `utcnow`); the response embeds `current_user.name`
and no `author_profile_picture` argument is passed. -/
def create_post (db : DB) (post_data : PostCreate) (current_user : User)
    (post_id : String) (now : Nat) : DB × PostResponse :=
  let new_post : Post :=
    { id := post_id, title := post_data.title, content := post_data.content,
      excerpt := post_data.excerpt, category := post_data.category,
      author_id := current_user.id, created_at := now, updated_at := now }
  ({ db with posts := db.posts ++ [new_post] },
   { id := new_post.id, title := new_post.title, content := new_post.content,
     excerpt := new_post.excerpt, category := new_post.category,
     author_id := new_post.author_id, author_name := current_user.name,
     created_at := new_post.created_at, updated_at := new_post.updated_at })

/-- `get_all_posts` of src/src/routes/posts.py: every post, newest created
first. -/
def get_all_posts (db : DB) : List PostResponse :=
  (List.insertionSort createdDesc db.posts).map (postResponseOf db)

/-- `get_post_by_id` of src/src/routes/posts.py. -/
def get_post_by_id (db : DB) (post_id : String) : Except ApiError PostResponse :=
  match db.findPost post_id with
  | none => .error (.notFound "Post not found")
  | some post => .ok (postResponseOf db post)

/-- The field-by-field update block of `update_post` (posts.py lines 141-150):
each provided field overwrites the stored one, absent (`None`) fields leave it
unchanged, and `updated_at` is set to `utcnow`. -/
def applyPostUpdate (post : Post) (post_data : PostUpdate) (now : Nat) : Post :=
  { post with
    title := post_data.title.getD post.title,
    content := post_data.content.getD post.content,
    excerpt :=
      match post_data.excerpt with
      | some e => some e
      | none => post.excerpt,
    category :=
      match post_data.category with
      | some c => some c
      | none => post.category,
    updated_at := now }

/-- `update_post` of src/src/routes/posts.py: 404 when the post is missing,
403 when the caller is not the author, otherwise commit the field updates. -/
def update_post (db : DB) (post_id : String) (post_data : PostUpdate)
    (current_user : User) (now : Nat) : DB × Except ApiError PostResponse :=
  match db.findPost post_id with
  | none => (db, .error (.notFound "Post not found"))
  | some post =>
    if post.author_id = current_user.id then
      let post' := applyPostUpdate post post_data now
      let db' : DB :=
        { db with posts := db.posts.map (fun q => if q.id == post.id then post' else q) }
      (db', .ok (postResponseOf db' post'))
    else
      (db, .error (.forbidden "Unauthorized access - only the author can edit this post"))

/-- `delete_post` of src/src/routes/posts.py: 404 when missing, 403 when the
caller is not the author, otherwise delete the row; the
`cascade="all, delete-orphan"` relationship of models.py deletes every comment
of the post with it. -/
def delete_post (db : DB) (post_id : String) (current_user : User) :
    DB × Except ApiError MessageResponse :=
  match db.findPost post_id with
  | none => (db, .error (.notFound "Post not found"))
  | some post =>
    if post.author_id = current_user.id then
      ({ db with posts := db.posts.filter (fun p => p.id != post.id),
                 comments := db.comments.filter (fun c => c.post_id != post.id) },
       .ok { message := "Post successfully deleted" })
    else
      (db, .error (.forbidden "Unauthorized access - only the author can delete this post"))

/-- `create_comment` of src/src/routes/comments.py: 404 when the post is
missing, otherwise insert a comment owned by the caller; the response embeds
the caller's name and profile picture. -/
def create_comment (db : DB) (post_id : String) (comment_data : CommentCreate)
    (current_user : User) (comment_id : String) (now : Nat) :
    DB × Except ApiError CommentResponse :=
  match db.findPost post_id with
  | none => (db, .error (.notFound "Post not found"))
  | some _ =>
    let new_comment : Comment :=
      { id := comment_id, content := comment_data.content, post_id := post_id,
        author_id := current_user.id, created_at := now, updated_at := now }
    ({ db with comments := db.comments ++ [new_comment] },
     .ok { id := new_comment.id, content := new_comment.content,
           post_id := new_comment.post_id, author_id := new_comment.author_id,
           author_name := current_user.name,
           author_profile_picture := current_user.profile_picture,
           created_at := new_comment.created_at,
           updated_at := new_comment.updated_at })

/-- `get_comments_by_post` of src/src/routes/comments.py: 404 when the post is
missing, otherwise that post's comments newest created first. -/
def get_comments_by_post (db : DB) (post_id : String) :
    Except ApiError (List CommentResponse) :=
  match db.findPost post_id with
  | none => .error (.notFound "Post not found")
  | some _ =>
    .ok ((List.insertionSort commentCreatedDesc
            (db.comments.filter (fun c => c.post_id == post_id))).map
          (commentResponseOf db))

/-- `update_comment` of src/src/routes/comments.py: 404 when missing, 403 when
the caller is not the author, otherwise overwrite the content and refresh
`updated_at`. -/
def update_comment (db : DB) (comment_id : String) (comment_data : CommentUpdate)
    (current_user : User) (now : Nat) : DB × Except ApiError CommentResponse :=
  match db.findComment comment_id with
  | none => (db, .error (.notFound "Comment not found"))
  | some comment =>
    if comment.author_id = current_user.id then
      let comment' := { comment with content := comment_data.content, updated_at := now }
      let db' : DB :=
        { db with comments := db.comments.map (fun q => if q.id == comment.id then comment' else q) }
      (db', .ok (commentResponseOf db' comment'))
    else
      (db, .error (.forbidden "Unauthorized access - only the author can edit this comment"))

/-- `delete_comment` of src/src/routes/comments.py: 404 when missing, 403 when
the caller is not the author, otherwise delete the row. -/
def delete_comment (db : DB) (comment_id : String) (current_user : User) :
    DB × Except ApiError MessageResponse :=
  match db.findComment comment_id with
  | none => (db, .error (.notFound "Comment not found"))
  | some comment =>
    if comment.author_id = current_user.id then
      ({ db with comments := db.comments.filter (fun c => c.id != comment.id) },
       .ok { message := "Comment successfully deleted" })
    else
      (db, .error (.forbidden "Unauthorized access - only the author can delete this comment"))

/-- Referential integrity of comments: every comment's `post_id` names an
existing post. -/
def CommentsRefPosts (db : DB) : Prop :=
  ∀ c ∈ db.comments, ∃ p ∈ db.posts, p.id = c.post_id

/-- No two users share an email. -/
def EmailsUnique (db : DB) : Prop :=
  db.users.Pairwise (fun a b => a.email ≠ b.email)

/-- No two users share an identifier (identifiers are uuid4 primary keys). -/
def UserIdsUnique (db : DB) : Prop :=
  db.users.Pairwise (fun a b => a.id ≠ b.id)

/-- One handler invocation, successful or failed, as a transition on the
store; read-only handlers do not touch the store.  Protected handlers carry
the Authorization Guard's postcondition that the acting user was loaded from
the store. -/
inductive Step : DB → DB → Prop where
  | ofRegister (db : DB) (ud : UserCreate) (uid : String) (salt secret ttl now : Nat) :
      Step db (register db ud uid salt secret ttl now).1
  | ofUpdateProfile (db : DB) (u : User) (ud : UserUpdate)
      (h : db.findUser u.id = some u) :
      Step db (update_user_profile db u ud).1
  | ofCreatePost (db : DB) (pd : PostCreate) (u : User) (pid : String) (now : Nat)
      (h : db.findUser u.id = some u) :
      Step db (create_post db pd u pid now).1
  | ofUpdatePost (db : DB) (pid : String) (pd : PostUpdate) (u : User) (now : Nat)
      (h : db.findUser u.id = some u) :
      Step db (update_post db pid pd u now).1
  | ofDeletePost (db : DB) (pid : String) (u : User)
      (h : db.findUser u.id = some u) :
      Step db (delete_post db pid u).1
  | ofCreateComment (db : DB) (pid : String) (cd : CommentCreate) (u : User)
      (cid : String) (now : Nat) (h : db.findUser u.id = some u) :
      Step db (create_comment db pid cd u cid now).1
  | ofUpdateComment (db : DB) (cid : String) (cd : CommentUpdate) (u : User) (now : Nat)
      (h : db.findUser u.id = some u) :
      Step db (update_comment db cid cd u now).1
  | ofDeleteComment (db : DB) (cid : String) (u : User)
      (h : db.findUser u.id = some u) :
      Step db (delete_comment db cid u).1

/-- Concrete store used to exercise the theorems on closed inputs. -/
def exUserA : User :=
  { id := "u1", email := "a@x.com", password := get_password_hash 7 "secret1",
    name := "Alice", profile_picture := some "pic.png", created_at := 10 }

def exUserB : User :=
  { id := "u2", email := "b@x.com", password := get_password_hash 8 "secret2",
    name := "Bob", profile_picture := none, created_at := 11 }

def exPost : Post :=
  { id := "p1", title := "Hello", content := "World", excerpt := none,
    category := none, author_id := "u1", created_at := 12, updated_at := 12 }

def exComment : Comment :=
  { id := "c1", content := "Nice", post_id := "p1", author_id := "u2",
    created_at := 13, updated_at := 13 }

def exDB : DB :=
  { users := [exUserA, exUserB], posts := [exPost], comments := [exComment] }

theorem findPost_some {db : DB} {pid : String} {r : Post}
    (h : db.findPost pid = some r) : r ∈ db.posts ∧ r.id = pid := by
  unfold DB.findPost at h
  refine ⟨List.mem_of_find?_eq_some h, ?_⟩
  simpa using List.find?_some h

theorem findComment_some {db : DB} {cid : String} {c : Comment}
    (h : db.findComment cid = some c) : c ∈ db.comments ∧ c.id = cid := by
  unfold DB.findComment at h
  refine ⟨List.mem_of_find?_eq_some h, ?_⟩
  simpa using List.find?_some h

theorem findUser_some {db : DB} {uid : String} {u : User}
    (h : db.findUser uid = some u) : u ∈ db.users ∧ u.id = uid := by
  unfold DB.findUser at h
  refine ⟨List.mem_of_find?_eq_some h, ?_⟩
  simpa using List.find?_some h

theorem findPost_eq_none {db : DB} {pid : String} (h : ∀ p ∈ db.posts, p.id ≠ pid) :
    db.findPost pid = none := by
  unfold DB.findPost
  rw [List.find?_eq_none]
  intro p hp
  simpa using h p hp

theorem findComment_eq_none {db : DB} {cid : String}
    (h : ∀ c ∈ db.comments, c.id ≠ cid) : db.findComment cid = none := by
  unfold DB.findComment
  rw [List.find?_eq_none]
  intro c hc
  simpa using h c hc

theorem findUserByEmail_none_forall {db : DB} {email : String}
    (h : db.findUserByEmail email = none) : ∀ u ∈ db.users, u.email ≠ email := by
  unfold DB.findUserByEmail at h
  intro u hu
  simpa using List.find?_eq_none.mp h u hu

theorem replacePost_id {r r' : Post} (hid : r'.id = r.id) (p : Post) :
    (if p.id == r.id then r' else p).id = p.id := by
  by_cases h : p.id = r.id
  · simp [h, hid]
  · simp [h]

theorem find?_replace_post {l : List Post} {pid : String} {r r' : Post}
    (hl : l.find? (fun q => q.id == pid) = some r) (hid : r'.id = r.id) :
    (l.map (fun q => if q.id == r.id then r' else q)).find? (fun q => q.id == pid) =
      some r' := by
  have hrk : r.id = pid := by simpa using List.find?_some hl
  induction l with
  | nil => simp at hl
  | cons a t ih =>
    by_cases ha : a.id = pid
    · have hpa : ((fun q : Post => q.id == pid) a) = true := by simpa using ha
      rw [List.find?_cons_of_pos (p := fun q : Post => q.id == pid) _ hpa] at hl
      obtain rfl : a = r := by simpa using hl
      have : (a.id == a.id) = true := by simp
      simp only [List.map_cons, this, if_true]
      have hp' : ((fun q : Post => q.id == pid) r') = true := by
        simp [hid, hrk]
      rw [List.find?_cons_of_pos (p := fun q : Post => q.id == pid) _ hp']
    · have hpa : ¬ ((fun q : Post => q.id == pid) a) = true := by simpa using ha
      rw [List.find?_cons_of_neg (p := fun q : Post => q.id == pid) _ hpa] at hl
      have hne : (a.id == r.id) = false := by
        rw [hrk]
        simpa using ha
      have hfa : (if (a.id == r.id) = true then r' else a) = a := by
        simp [hne]
      simp only [List.map_cons, hfa]
      rw [List.find?_cons_of_neg (p := fun q : Post => q.id == pid) _ hpa]
      exact ih hl

theorem eq_of_pairwise_id_ne {l : List User}
    (hp : l.Pairwise (fun a b => a.id ≠ b.id)) {q u : User}
    (hq : q ∈ l) (hu : u ∈ l) (h : q.id = u.id) : q = u := by
  induction l with
  | nil => cases hq
  | cons a t ih =>
    rw [List.pairwise_cons] at hp
    obtain ⟨ha, ht⟩ := hp
    rcases List.mem_cons.mp hq with rfl | hq'
    · rcases List.mem_cons.mp hu with rfl | hu'
      · rfl
      · exact absurd h (ha u hu')
    · rcases List.mem_cons.mp hu with rfl | hu'
      · exact absurd h.symm (ha q hq')
      · exact ih ht hq' hu'

theorem applyUserUpdate_email_id (u : User) (ud : UserUpdate) :
    (applyUserUpdate u ud).email = u.email ∧ (applyUserUpdate u ud).id = u.id := by
  obtain ⟨n, p⟩ := ud
  cases n <;> cases p <;> exact ⟨rfl, rfl⟩

theorem update_post_missing {db : DB} {pid : String} (pd : PostUpdate) (u : User)
    (now : Nat) (h : db.findPost pid = none) :
    update_post db pid pd u now = (db, .error (.notFound "Post not found")) := by
  unfold update_post
  rw [h]

theorem update_post_found {db : DB} {pid : String} {r : Post} (pd : PostUpdate)
    (u : User) (now : Nat) (h : db.findPost pid = some r) :
    update_post db pid pd u now =
      if r.author_id = u.id then
        ({ db with posts :=
             db.posts.map (fun q => if q.id == r.id then applyPostUpdate r pd now else q) },
         .ok (postResponseOf
           { db with posts :=
               db.posts.map (fun q => if q.id == r.id then applyPostUpdate r pd now else q) }
           (applyPostUpdate r pd now)))
      else
        (db, .error (.forbidden "Unauthorized access - only the author can edit this post")) := by
  unfold update_post
  rw [h]

theorem delete_post_missing {db : DB} {pid : String} (u : User)
    (h : db.findPost pid = none) :
    delete_post db pid u = (db, .error (.notFound "Post not found")) := by
  unfold delete_post
  rw [h]

theorem delete_post_found {db : DB} {pid : String} {r : Post} (u : User)
    (h : db.findPost pid = some r) :
    delete_post db pid u =
      if r.author_id = u.id then
        ({ db with posts := db.posts.filter (fun p => p.id != r.id),
                   comments := db.comments.filter (fun c => c.post_id != r.id) },
         .ok { message := "Post successfully deleted" })
      else
        (db, .error (.forbidden "Unauthorized access - only the author can delete this post")) := by
  unfold delete_post
  rw [h]

theorem create_comment_missing {db : DB} {pid : String} (cd : CommentCreate)
    (u : User) (cid : String) (now : Nat) (h : db.findPost pid = none) :
    create_comment db pid cd u cid now = (db, .error (.notFound "Post not found")) := by
  unfold create_comment
  rw [h]

theorem create_comment_found {db : DB} {pid : String} {r : Post} (cd : CommentCreate)
    (u : User) (cid : String) (now : Nat) (h : db.findPost pid = some r) :
    create_comment db pid cd u cid now =
      ({ db with comments := db.comments ++
           [{ id := cid, content := cd.content, post_id := pid, author_id := u.id,
              created_at := now, updated_at := now }] },
       .ok { id := cid, content := cd.content, post_id := pid, author_id := u.id,
             author_name := u.name, author_profile_picture := u.profile_picture,
             created_at := now, updated_at := now }) := by
  unfold create_comment
  rw [h]

theorem update_comment_missing {db : DB} {cid : String} (cd : CommentUpdate)
    (u : User) (now : Nat) (h : db.findComment cid = none) :
    update_comment db cid cd u now = (db, .error (.notFound "Comment not found")) := by
  unfold update_comment
  rw [h]

theorem update_comment_found {db : DB} {cid : String} {c : Comment} (cd : CommentUpdate)
    (u : User) (now : Nat) (h : db.findComment cid = some c) :
    update_comment db cid cd u now =
      if c.author_id = u.id then
        ({ db with comments :=
             db.comments.map (fun q =>
               if q.id == c.id then { c with content := cd.content, updated_at := now } else q) },
         .ok (commentResponseOf
           { db with comments :=
               db.comments.map (fun q =>
                 if q.id == c.id then { c with content := cd.content, updated_at := now } else q) }
           { c with content := cd.content, updated_at := now }))
      else
        (db, .error (.forbidden "Unauthorized access - only the author can edit this comment")) := by
  unfold update_comment
  rw [h]

theorem delete_comment_missing {db : DB} {cid : String} (u : User)
    (h : db.findComment cid = none) :
    delete_comment db cid u = (db, .error (.notFound "Comment not found")) := by
  unfold delete_comment
  rw [h]

theorem delete_comment_found {db : DB} {cid : String} {c : Comment} (u : User)
    (h : db.findComment cid = some c) :
    delete_comment db cid u =
      if c.author_id = u.id then
        ({ db with comments := db.comments.filter (fun q => q.id != c.id) },
         .ok { message := "Comment successfully deleted" })
      else
        (db, .error (.forbidden "Unauthorized access - only the author can delete this comment")) := by
  unfold delete_comment
  rw [h]

theorem register_conflict {db : DB} {ud : UserCreate} {w : User}
    (user_id : String) (salt secret ttl now : Nat)
    (h : db.findUserByEmail ud.email = some w) :
    register db ud user_id salt secret ttl now =
      (db, .error (.conflict "Email already registered")) := by
  unfold register
  rw [h]

theorem register_fresh {db : DB} {ud : UserCreate}
    (user_id : String) (salt secret ttl now : Nat)
    (h : db.findUserByEmail ud.email = none) :
    register db ud user_id salt secret ttl now =
      ({ db with users := db.users ++ [regUser ud user_id salt now] },
       .ok { access_token := create_access_token secret ttl now user_id,
             user := userResponseOf (regUser ud user_id salt now) }) := by
  unfold register
  rw [h]
  rfl

theorem update_post_error_cases {db db₂ : DB} {pid : String} {pd : PostUpdate}
    {u : User} {now : Nat} {e : ApiError}
    (h : update_post db pid pd u now = (db₂, .error e)) :
    db₂ = db ∧
      ((e = .notFound "Post not found" ∧ db.findPost pid = none) ∨
       ∃ r, db.findPost pid = some r ∧ r.author_id ≠ u.id ∧
         e = .forbidden "Unauthorized access - only the author can edit this post") := by
  cases hf : db.findPost pid with
  | none =>
    rw [update_post_missing pd u now hf] at h
    injection h with h1 h2
    injection h2 with h3
    exact ⟨h1.symm, .inl ⟨h3.symm, rfl⟩⟩
  | some r =>
    rw [update_post_found pd u now hf] at h
    by_cases hauth : r.author_id = u.id
    · rw [if_pos hauth] at h
      injection h with h1 h2
      injection h2
    · rw [if_neg hauth] at h
      injection h with h1 h2
      injection h2 with h3
      exact ⟨h1.symm, .inr ⟨r, rfl, hauth, h3.symm⟩⟩

theorem update_post_ok_shape {db db₂ : DB} {pid : String} {pd : PostUpdate}
    {u : User} {now : Nat} {res : PostResponse}
    (h : update_post db pid pd u now = (db₂, .ok res)) :
    ∃ r, db.findPost pid = some r ∧ r.author_id = u.id ∧
      db₂ = { db with posts := db.posts.map (fun q => if q.id == r.id then applyPostUpdate r pd now else q) } := by
  cases hf : db.findPost pid with
  | none =>
    rw [update_post_missing pd u now hf] at h
    injection h with h1 h2
    injection h2
  | some r =>
    rw [update_post_found pd u now hf] at h
    by_cases hauth : r.author_id = u.id
    · rw [if_pos hauth] at h
      injection h with h1 h2
      exact ⟨r, rfl, hauth, h1.symm⟩
    · rw [if_neg hauth] at h
      injection h with h1 h2
      injection h2

theorem delete_post_error_cases {db db₂ : DB} {pid : String} {u : User} {e : ApiError}
    (h : delete_post db pid u = (db₂, .error e)) :
    db₂ = db ∧
      ((e = .notFound "Post not found" ∧ db.findPost pid = none) ∨
       ∃ r, db.findPost pid = some r ∧ r.author_id ≠ u.id ∧
         e = .forbidden "Unauthorized access - only the author can delete this post") := by
  cases hf : db.findPost pid with
  | none =>
    rw [delete_post_missing u hf] at h
    injection h with h1 h2
    injection h2 with h3
    exact ⟨h1.symm, .inl ⟨h3.symm, rfl⟩⟩
  | some r =>
    rw [delete_post_found u hf] at h
    by_cases hauth : r.author_id = u.id
    · rw [if_pos hauth] at h
      injection h with h1 h2
      injection h2
    · rw [if_neg hauth] at h
      injection h with h1 h2
      injection h2 with h3
      exact ⟨h1.symm, .inr ⟨r, rfl, hauth, h3.symm⟩⟩

theorem delete_post_ok_shape {db db₂ : DB} {pid : String} {u : User} {m : MessageResponse}
    (h : delete_post db pid u = (db₂, .ok m)) :
    ∃ r, db.findPost pid = some r ∧ r.author_id = u.id ∧ r.id = pid ∧
      db₂ = { db with posts := db.posts.filter (fun p => p.id != r.id),
                      comments := db.comments.filter (fun c => c.post_id != r.id) } := by
  cases hf : db.findPost pid with
  | none =>
    rw [delete_post_missing u hf] at h
    injection h with h1 h2
    injection h2
  | some r =>
    rw [delete_post_found u hf] at h
    by_cases hauth : r.author_id = u.id
    · rw [if_pos hauth] at h
      injection h with h1 h2
      exact ⟨r, rfl, hauth, (findPost_some hf).2, h1.symm⟩
    · rw [if_neg hauth] at h
      injection h with h1 h2
      injection h2

theorem create_comment_error_cases {db db₂ : DB} {pid : String} {cd : CommentCreate}
    {u : User} {cid : String} {now : Nat} {e : ApiError}
    (h : create_comment db pid cd u cid now = (db₂, .error e)) :
    db₂ = db ∧ e = .notFound "Post not found" ∧ db.findPost pid = none := by
  cases hf : db.findPost pid with
  | none =>
    rw [create_comment_missing cd u cid now hf] at h
    injection h with h1 h2
    injection h2 with h3
    exact ⟨h1.symm, h3.symm, rfl⟩
  | some r =>
    rw [create_comment_found cd u cid now hf] at h
    injection h with h1 h2
    injection h2

theorem create_comment_ok_shape {db db₂ : DB} {pid : String} {cd : CommentCreate}
    {u : User} {cid : String} {now : Nat} {res : CommentResponse}
    (h : create_comment db pid cd u cid now = (db₂, .ok res)) :
    ∃ r, db.findPost pid = some r ∧ r.id = pid ∧
      db₂ = { db with comments := db.comments ++
                [{ id := cid, content := cd.content, post_id := pid, author_id := u.id,
                   created_at := now, updated_at := now }] } := by
  cases hf : db.findPost pid with
  | none =>
    rw [create_comment_missing cd u cid now hf] at h
    injection h with h1 h2
    injection h2
  | some r =>
    rw [create_comment_found cd u cid now hf] at h
    injection h with h1 h2
    exact ⟨r, rfl, (findPost_some hf).2, h1.symm⟩

theorem update_comment_error_cases {db db₂ : DB} {cid : String} {cd : CommentUpdate}
    {u : User} {now : Nat} {e : ApiError}
    (h : update_comment db cid cd u now = (db₂, .error e)) :
    db₂ = db ∧
      ((e = .notFound "Comment not found" ∧ db.findComment cid = none) ∨
       ∃ c, db.findComment cid = some c ∧ c.author_id ≠ u.id ∧
         e = .forbidden "Unauthorized access - only the author can edit this comment") := by
  cases hf : db.findComment cid with
  | none =>
    rw [update_comment_missing cd u now hf] at h
    injection h with h1 h2
    injection h2 with h3
    exact ⟨h1.symm, .inl ⟨h3.symm, rfl⟩⟩
  | some c =>
    rw [update_comment_found cd u now hf] at h
    by_cases hauth : c.author_id = u.id
    · rw [if_pos hauth] at h
      injection h with h1 h2
      injection h2
    · rw [if_neg hauth] at h
      injection h with h1 h2
      injection h2 with h3
      exact ⟨h1.symm, .inr ⟨c, rfl, hauth, h3.symm⟩⟩

theorem update_comment_ok_shape {db db₂ : DB} {cid : String} {cd : CommentUpdate}
    {u : User} {now : Nat} {res : CommentResponse}
    (h : update_comment db cid cd u now = (db₂, .ok res)) :
    ∃ c, db.findComment cid = some c ∧ c.author_id = u.id ∧
      db₂ = { db with comments := db.comments.map (fun q => if q.id == c.id then { c with content := cd.content, updated_at := now } else q) } := by
  cases hf : db.findComment cid with
  | none =>
    rw [update_comment_missing cd u now hf] at h
    injection h with h1 h2
    injection h2
  | some c =>
    rw [update_comment_found cd u now hf] at h
    by_cases hauth : c.author_id = u.id
    · rw [if_pos hauth] at h
      injection h with h1 h2
      exact ⟨c, rfl, hauth, h1.symm⟩
    · rw [if_neg hauth] at h
      injection h with h1 h2
      injection h2

theorem delete_comment_error_cases {db db₂ : DB} {cid : String} {u : User} {e : ApiError}
    (h : delete_comment db cid u = (db₂, .error e)) :
    db₂ = db ∧
      ((e = .notFound "Comment not found" ∧ db.findComment cid = none) ∨
       ∃ c, db.findComment cid = some c ∧ c.author_id ≠ u.id ∧
         e = .forbidden "Unauthorized access - only the author can delete this comment") := by
  cases hf : db.findComment cid with
  | none =>
    rw [delete_comment_missing u hf] at h
    injection h with h1 h2
    injection h2 with h3
    exact ⟨h1.symm, .inl ⟨h3.symm, rfl⟩⟩
  | some c =>
    rw [delete_comment_found u hf] at h
    by_cases hauth : c.author_id = u.id
    · rw [if_pos hauth] at h
      injection h with h1 h2
      injection h2
    · rw [if_neg hauth] at h
      injection h with h1 h2
      injection h2 with h3
      exact ⟨h1.symm, .inr ⟨c, rfl, hauth, h3.symm⟩⟩

theorem delete_comment_ok_shape {db db₂ : DB} {cid : String} {u : User}
    {m : MessageResponse} (h : delete_comment db cid u = (db₂, .ok m)) :
    ∃ c, db.findComment cid = some c ∧ c.author_id = u.id ∧
      db₂ = { db with comments := db.comments.filter (fun q => q.id != c.id) } := by
  cases hf : db.findComment cid with
  | none =>
    rw [delete_comment_missing u hf] at h
    injection h with h1 h2
    injection h2
  | some c =>
    rw [delete_comment_found u hf] at h
    by_cases hauth : c.author_id = u.id
    · rw [if_pos hauth] at h
      injection h with h1 h2
      exact ⟨c, rfl, hauth, h1.symm⟩
    · rw [if_neg hauth] at h
      injection h with h1 h2
      injection h2

/-- C5: verifying a password against its own hash succeeds for every string,
and verifying it against the hash of any other string fails (Credential
Service modelled from the spec, src/middleware/auth.py not in the sources). -/
theorem c5_hash_verify_round_trip :
    (∀ (salt : Nat) (password : String),
       verify_password password (get_password_hash salt password) = true) ∧
    (∀ (salt : Nat) (password other : String), password ≠ other →
       verify_password password (get_password_hash salt other) = false) := by
  constructor
  · intro salt password
    simp [verify_password, get_password_hash]
  · intro salt password other h
    simpa [verify_password, get_password_hash] using h

theorem c5_hash_verify_round_trip_witness :
    verify_password "secret1" (get_password_hash 7 "secret1") = true ∧
    verify_password "secret1" (get_password_hash 8 "secret2") = false :=
  ⟨c5_hash_verify_round_trip.1 7 "secret1",
   c5_hash_verify_round_trip.2 8 "secret1" "secret2" (by decide)⟩

/-- C9: `get_all_posts` returns exactly the stored posts and `get_user_posts`
exactly the posts authored by the authenticated user, both sorted by creation
timestamp descending (newest-created first). -/
theorem c9_listings_complete_and_sorted (db : DB) (u : User) :
    (List.insertionSort createdDesc db.posts).Perm db.posts ∧
    (List.insertionSort createdDesc db.posts).Sorted createdDesc ∧
    get_all_posts db = (List.insertionSort createdDesc db.posts).map (postResponseOf db) ∧
    (List.insertionSort createdDesc
        (db.posts.filter (fun p => p.author_id == u.id))).Perm
      (db.posts.filter (fun p => p.author_id == u.id)) ∧
    (List.insertionSort createdDesc
        (db.posts.filter (fun p => p.author_id == u.id))).Sorted createdDesc ∧
    get_user_posts db u =
      (List.insertionSort createdDesc
          (db.posts.filter (fun p => p.author_id == u.id))).map
        (selfPostResponseOf u) :=
  ⟨List.perm_insertionSort createdDesc db.posts,
   List.sorted_insertionSort createdDesc db.posts,
   rfl,
   List.perm_insertionSort createdDesc _,
   List.sorted_insertionSort createdDesc _,
   rfl⟩

/-- C1: only the author may mutate or delete a post or comment: for an
existing target and an authenticated caller whose identifier differs from the
stored author identifier, update and delete fail with 403 Forbidden and
return the store unchanged; conversely any successful update or delete
implies the caller's identifier equals the author identifier. -/
theorem c1_owner_only_mutation :
    (∀ (db : DB) (pid : String) (pd : PostUpdate) (u : User) (now : Nat) (r : Post),
       db.findPost pid = some r →
       (u.id ≠ r.author_id →
         update_post db pid pd u now =
           (db, .error (.forbidden "Unauthorized access - only the author can edit this post")) ∧
         delete_post db pid u =
           (db, .error (.forbidden "Unauthorized access - only the author can delete this post"))) ∧
       (∀ (db₂ : DB) (res : PostResponse),
          update_post db pid pd u now = (db₂, .ok res) → u.id = r.author_id) ∧
       (∀ (db₂ : DB) (m : MessageResponse),
          delete_post db pid u = (db₂, .ok m) → u.id = r.author_id)) ∧
    (∀ (db : DB) (cid : String) (cd : CommentUpdate) (u : User) (now : Nat) (c : Comment),
       db.findComment cid = some c →
       (u.id ≠ c.author_id →
         update_comment db cid cd u now =
           (db, .error (.forbidden "Unauthorized access - only the author can edit this comment")) ∧
         delete_comment db cid u =
           (db, .error (.forbidden "Unauthorized access - only the author can delete this comment"))) ∧
       (∀ (db₂ : DB) (res : CommentResponse),
          update_comment db cid cd u now = (db₂, .ok res) → u.id = c.author_id) ∧
       (∀ (db₂ : DB) (m : MessageResponse),
          delete_comment db cid u = (db₂, .ok m) → u.id = c.author_id)) := by
  constructor
  · intro db pid pd u now r hf
    refine ⟨fun hne => ?_, fun db₂ res hok => ?_, fun db₂ m hok => ?_⟩
    · constructor
      · rw [update_post_found pd u now hf, if_neg (fun hh => hne hh.symm)]
      · rw [delete_post_found u hf, if_neg (fun hh => hne hh.symm)]
    · obtain ⟨r', hf', ha', _⟩ := update_post_ok_shape hok
      rw [hf] at hf'
      injection hf' with hr
      rw [← hr] at ha'
      exact ha'.symm
    · obtain ⟨r', hf', ha', _, _⟩ := delete_post_ok_shape hok
      rw [hf] at hf'
      injection hf' with hr
      rw [← hr] at ha'
      exact ha'.symm
  · intro db cid cd u now c hf
    refine ⟨fun hne => ?_, fun db₂ res hok => ?_, fun db₂ m hok => ?_⟩
    · constructor
      · rw [update_comment_found cd u now hf, if_neg (fun hh => hne hh.symm)]
      · rw [delete_comment_found u hf, if_neg (fun hh => hne hh.symm)]
    · obtain ⟨c', hf', ha', _⟩ := update_comment_ok_shape hok
      rw [hf] at hf'
      injection hf' with hc
      rw [← hc] at ha'
      exact ha'.symm
    · obtain ⟨c', hf', ha', _⟩ := delete_comment_ok_shape hok
      rw [hf] at hf'
      injection hf' with hc
      rw [← hc] at ha'
      exact ha'.symm

theorem c1_owner_only_mutation_witness :
    update_post exDB "p1" { title := none, content := none, excerpt := none, category := none } exUserB 50 =
      (exDB, .error (.forbidden "Unauthorized access - only the author can edit this post")) ∧
    delete_comment exDB "c1" exUserA =
      (exDB, .error (.forbidden "Unauthorized access - only the author can delete this comment")) :=
  ⟨((c1_owner_only_mutation.1 exDB "p1"
      { title := none, content := none, excerpt := none, category := none }
      exUserB 50 exPost (by rfl)).1 (by decide)).1,
   ((c1_owner_only_mutation.2 exDB "c1" { content := "x" } exUserA 0 exComment
      (by rfl)).1 (by decide)).2⟩

/-- C6: every protected mutating handler checks existence before ownership: a
missing target yields 404 NotFound regardless of the caller, 403 Forbidden
only ever arises for an existing target whose author differs from the caller,
and every failing request returns the store unchanged. -/
theorem c6_existence_before_ownership :
    (∀ (db : DB) (pid : String) (pd : PostUpdate) (u : User) (now : Nat),
       db.findPost pid = none →
       update_post db pid pd u now = (db, .error (.notFound "Post not found")) ∧
       delete_post db pid u = (db, .error (.notFound "Post not found"))) ∧
    (∀ (db : DB) (cid : String) (cd : CommentUpdate) (u : User) (now : Nat),
       db.findComment cid = none →
       update_comment db cid cd u now = (db, .error (.notFound "Comment not found")) ∧
       delete_comment db cid u = (db, .error (.notFound "Comment not found"))) ∧
    (∀ (db : DB) (pid : String) (cd : CommentCreate) (u : User) (cid : String) (now : Nat),
       db.findPost pid = none →
       create_comment db pid cd u cid now = (db, .error (.notFound "Post not found"))) ∧
    (∀ (db db₂ : DB) (pid : String) (pd : PostUpdate) (u : User) (now : Nat) (d : String),
       update_post db pid pd u now = (db₂, .error (.forbidden d)) →
       db₂ = db ∧ ∃ r, db.findPost pid = some r ∧ r.author_id ≠ u.id) ∧
    (∀ (db db₂ : DB) (pid : String) (u : User) (d : String),
       delete_post db pid u = (db₂, .error (.forbidden d)) →
       db₂ = db ∧ ∃ r, db.findPost pid = some r ∧ r.author_id ≠ u.id) ∧
    (∀ (db db₂ : DB) (cid : String) (cd : CommentUpdate) (u : User) (now : Nat) (d : String),
       update_comment db cid cd u now = (db₂, .error (.forbidden d)) →
       db₂ = db ∧ ∃ c, db.findComment cid = some c ∧ c.author_id ≠ u.id) ∧
    (∀ (db db₂ : DB) (cid : String) (u : User) (d : String),
       delete_comment db cid u = (db₂, .error (.forbidden d)) →
       db₂ = db ∧ ∃ c, db.findComment cid = some c ∧ c.author_id ≠ u.id) ∧
    (∀ (db db₂ : DB) (pid : String) (pd : PostUpdate) (u : User) (now : Nat) (e : ApiError),
       update_post db pid pd u now = (db₂, .error e) → db₂ = db) ∧
    (∀ (db db₂ : DB) (pid : String) (u : User) (e : ApiError),
       delete_post db pid u = (db₂, .error e) → db₂ = db) ∧
    (∀ (db db₂ : DB) (pid : String) (cd : CommentCreate) (u : User) (cid : String) (now : Nat) (e : ApiError),
       create_comment db pid cd u cid now = (db₂, .error e) → db₂ = db) ∧
    (∀ (db db₂ : DB) (cid : String) (cd : CommentUpdate) (u : User) (now : Nat) (e : ApiError),
       update_comment db cid cd u now = (db₂, .error e) → db₂ = db) ∧
    (∀ (db db₂ : DB) (cid : String) (u : User) (e : ApiError),
       delete_comment db cid u = (db₂, .error e) → db₂ = db) := by
  refine ⟨?_, ?_, ?_, ?_, ?_, ?_, ?_, ?_, ?_, ?_, ?_, ?_⟩
  · intro db pid pd u now h
    exact ⟨update_post_missing pd u now h, delete_post_missing u h⟩
  · intro db cid cd u now h
    exact ⟨update_comment_missing cd u now h, delete_comment_missing u h⟩
  · intro db pid cd u cid now h
    exact create_comment_missing cd u cid now h
  · intro db db₂ pid pd u now d h
    obtain ⟨hdb, hcases⟩ := update_post_error_cases h
    rcases hcases with ⟨he, _⟩ | ⟨r, hf, hne, _⟩
    · injection he
    · exact ⟨hdb, r, hf, hne⟩
  · intro db db₂ pid u d h
    obtain ⟨hdb, hcases⟩ := delete_post_error_cases h
    rcases hcases with ⟨he, _⟩ | ⟨r, hf, hne, _⟩
    · injection he
    · exact ⟨hdb, r, hf, hne⟩
  · intro db db₂ cid cd u now d h
    obtain ⟨hdb, hcases⟩ := update_comment_error_cases h
    rcases hcases with ⟨he, _⟩ | ⟨c, hf, hne, _⟩
    · injection he
    · exact ⟨hdb, c, hf, hne⟩
  · intro db db₂ cid u d h
    obtain ⟨hdb, hcases⟩ := delete_comment_error_cases h
    rcases hcases with ⟨he, _⟩ | ⟨c, hf, hne, _⟩
    · injection he
    · exact ⟨hdb, c, hf, hne⟩
  · intro db db₂ pid pd u now e h
    exact (update_post_error_cases h).1
  · intro db db₂ pid u e h
    exact (delete_post_error_cases h).1
  · intro db db₂ pid cd u cid now e h
    exact (create_comment_error_cases h).1
  · intro db db₂ cid cd u now e h
    exact (update_comment_error_cases h).1
  · intro db db₂ cid u e h
    exact (delete_comment_error_cases h).1

theorem c6_existence_before_ownership_witness :
    update_post exDB "nope" { title := none, content := none, excerpt := none, category := none } exUserA 50 =
      (exDB, .error (.notFound "Post not found")) ∧
    delete_comment exDB "nope" exUserB = (exDB, .error (.notFound "Comment not found")) :=
  ⟨(c6_existence_before_ownership.1 exDB "nope"
      { title := none, content := none, excerpt := none, category := none }
      exUserA 50 (by rfl)).1,
   (c6_existence_before_ownership.2.1 exDB "nope" { content := "x" } exUserB 0 (by rfl)).2⟩

/-- C3: email uniqueness is an invariant of the user store: registering an
email that is already present fails with 400 Conflict and returns the store
unchanged; a registration keeps user emails pairwise distinct; and a profile
update by a store-loaded user keeps user emails pairwise distinct. -/
theorem c3_email_uniqueness :
    (∀ (db : DB) (ud : UserCreate) (user_id : String) (salt secret ttl now : Nat),
       (∃ u ∈ db.users, u.email = ud.email) →
       register db ud user_id salt secret ttl now =
         (db, .error (.conflict "Email already registered"))) ∧
    (∀ (db : DB) (ud : UserCreate) (user_id : String) (salt secret ttl now : Nat),
       EmailsUnique db → EmailsUnique (register db ud user_id salt secret ttl now).1) ∧
    (∀ (db : DB) (u : User) (ud : UserUpdate),
       db.findUser u.id = some u → UserIdsUnique db → EmailsUnique db →
       EmailsUnique (update_user_profile db u ud).1) := by
  refine ⟨?_, ?_, ?_⟩
  · rintro db ud user_id salt secret ttl now ⟨u, hu, he⟩
    have hs : (db.users.find? (fun v => v.email == ud.email)).isSome := by
      rw [List.find?_isSome]
      exact ⟨u, hu, by simpa using he⟩
    obtain ⟨w, hw⟩ := Option.isSome_iff_exists.mp hs
    exact register_conflict user_id salt secret ttl now hw
  · intro db ud user_id salt secret ttl now hEU
    cases hfind : db.findUserByEmail ud.email with
    | some w =>
      rw [register_conflict user_id salt secret ttl now hfind]
      exact hEU
    | none =>
      rw [register_fresh user_id salt secret ttl now hfind]
      show (db.users ++ [regUser ud user_id salt now]).Pairwise (fun a b => a.email ≠ b.email)
      rw [List.pairwise_append]
      refine ⟨hEU, by simp, ?_⟩
      intro a ha b hb
      rw [List.mem_singleton] at hb
      subst hb
      exact findUserByEmail_none_forall hfind a ha
  · intro db u ud hfind hids hEU
    have hu := findUser_some hfind
    have hmap : ((update_user_profile db u ud).1.users.map (fun v => v.email)) =
        db.users.map (fun v => v.email) := by
      show ((db.users.map (fun q => if q.id == u.id then applyUserUpdate u ud else q)).map
        (fun v => v.email)) = db.users.map (fun v => v.email)
      rw [List.map_map]
      apply List.map_congr_left
      intro q hq
      by_cases hqe : q.id = u.id
      · have hqu : q = u := eq_of_pairwise_id_ne hids hq hu.1 hqe
        simp [Function.comp, hqe, hqu, (applyUserUpdate_email_id u ud).1]
      · simp [Function.comp, hqe]
    have h2 : ((update_user_profile db u ud).1.users.map (fun v => v.email)).Pairwise
        (fun a b => a ≠ b) := by
      rw [hmap]
      exact List.pairwise_map.mpr hEU
    exact List.pairwise_map.mp h2

theorem c3_email_uniqueness_witness :
    register exDB { email := "a@x.com", name := "Al", password := "secret9" } "u9" 9 1 1440 20 =
      (exDB, .error (.conflict "Email already registered")) ∧
    EmailsUnique (register exDB { email := "c@x.com", name := "Carol", password := "secret9" } "u9" 9 1 1440 20).1 :=
  ⟨c3_email_uniqueness.1 exDB { email := "a@x.com", name := "Al", password := "secret9" }
      "u9" 9 1 1440 20 ⟨exUserA, List.mem_cons_self exUserA [exUserB], rfl⟩,
   c3_email_uniqueness.2.1 exDB { email := "c@x.com", name := "Carol", password := "secret9" }
      "u9" 9 1 1440 20 (by unfold EmailsUnique; decide)⟩

/-- C2: referential integrity of comments: creating a comment on an absent
post fails 404 NotFound leaving the store unchanged, deleting a post removes
exactly the comments of that post, and every handler transition preserves the
invariant that each comment references an existing post. -/
theorem c2_referential_integrity :
    (∀ (db : DB) (pid : String) (cd : CommentCreate) (u : User) (cid : String) (now : Nat),
       (∀ p ∈ db.posts, p.id ≠ pid) →
       create_comment db pid cd u cid now = (db, .error (.notFound "Post not found"))) ∧
    (∀ (db db₂ : DB) (pid : String) (u : User) (m : MessageResponse),
       delete_post db pid u = (db₂, .ok m) →
       (∀ c ∈ db₂.comments, c.post_id ≠ pid) ∧
       (∀ c ∈ db.comments, c.post_id ≠ pid → c ∈ db₂.comments)) ∧
    (∀ db db' : DB, Step db db' → CommentsRefPosts db → CommentsRefPosts db') := by
  refine ⟨?_, ?_, ?_⟩
  · intro db pid cd u cid now h
    exact create_comment_missing cd u cid now (findPost_eq_none h)
  · intro db db₂ pid u m h
    obtain ⟨r, hf, hauth, hrid, hdb⟩ := delete_post_ok_shape h
    subst hdb
    constructor
    · intro c hc
      have h2 := (List.mem_filter.mp hc).2
      rw [bne_iff_ne] at h2
      rw [← hrid]
      exact h2
    · intro c hc hne
      refine List.mem_filter.mpr ⟨hc, ?_⟩
      rw [bne_iff_ne, hrid]
      exact hne
  · intro db db' hstep hI
    cases hstep with
    | ofRegister ud uid salt secret ttl now =>
      cases hfind : db.findUserByEmail ud.email with
      | some w =>
        rw [register_conflict uid salt secret ttl now hfind]
        exact hI
      | none =>
        rw [register_fresh uid salt secret ttl now hfind]
        exact hI
    | ofUpdateProfile u ud h =>
      exact hI
    | ofCreatePost pd u pid now h =>
      intro c hc
      obtain ⟨p, hp, hpid⟩ := hI c hc
      exact ⟨p, List.mem_append_left _ hp, hpid⟩
    | ofUpdatePost pid pd u now h =>
      cases hf : db.findPost pid with
      | none =>
        rw [update_post_missing pd u now hf]
        exact hI
      | some r =>
        rw [update_post_found pd u now hf]
        by_cases hauth : r.author_id = u.id
        · rw [if_pos hauth]
          intro c hc
          obtain ⟨p, hp, hpid⟩ := hI c hc
          refine ⟨_, List.mem_map_of_mem _ hp, ?_⟩
          show (if p.id == r.id then applyPostUpdate r pd now else p).id = c.post_id
          exact (replacePost_id (show (applyPostUpdate r pd now).id = r.id from rfl) p).trans hpid
        · rw [if_neg hauth]
          exact hI
    | ofDeletePost pid u h =>
      cases hf : db.findPost pid with
      | none =>
        rw [delete_post_missing u hf]
        exact hI
      | some r =>
        rw [delete_post_found u hf]
        by_cases hauth : r.author_id = u.id
        · rw [if_pos hauth]
          intro c hc
          obtain ⟨hcm, hcid⟩ := List.mem_filter.mp hc
          rw [bne_iff_ne] at hcid
          obtain ⟨p, hp, hpid⟩ := hI c hcm
          refine ⟨p, List.mem_filter.mpr ⟨hp, ?_⟩, hpid⟩
          rw [bne_iff_ne, hpid]
          exact hcid
        · rw [if_neg hauth]
          exact hI
    | ofCreateComment pid cd u cid now h =>
      cases hf : db.findPost pid with
      | none =>
        rw [create_comment_missing cd u cid now hf]
        exact hI
      | some r =>
        rw [create_comment_found cd u cid now hf]
        intro c hc
        rcases List.mem_append.mp hc with hc1 | hc2
        · obtain ⟨p, hp, hpid⟩ := hI c hc1
          exact ⟨p, hp, hpid⟩
        · rw [List.mem_singleton] at hc2
          subst hc2
          exact ⟨r, (findPost_some hf).1, (findPost_some hf).2⟩
    | ofUpdateComment cid cd u now h =>
      cases hf : db.findComment cid with
      | none =>
        rw [update_comment_missing cd u now hf]
        exact hI
      | some c0 =>
        rw [update_comment_found cd u now hf]
        by_cases hauth : c0.author_id = u.id
        · rw [if_pos hauth]
          intro c hc
          obtain ⟨q, hq, rfl⟩ := List.mem_map.mp hc
          by_cases hqc : q.id = c0.id
          · obtain ⟨p, hp, hpid⟩ := hI c0 (findComment_some hf).1
            refine ⟨p, hp, ?_⟩
            show p.id = (if q.id == c0.id then { c0 with content := cd.content, updated_at := now } else q).post_id
            simpa [hqc] using hpid
          · obtain ⟨p, hp, hpid⟩ := hI q hq
            refine ⟨p, hp, ?_⟩
            show p.id = (if q.id == c0.id then { c0 with content := cd.content, updated_at := now } else q).post_id
            simpa [hqc] using hpid
        · rw [if_neg hauth]
          exact hI
    | ofDeleteComment cid u h =>
      cases hf : db.findComment cid with
      | none =>
        rw [delete_comment_missing u hf]
        exact hI
      | some c0 =>
        rw [delete_comment_found u hf]
        by_cases hauth : c0.author_id = u.id
        · rw [if_pos hauth]
          intro c hc
          exact hI c (List.mem_filter.mp hc).1
        · rw [if_neg hauth]
          exact hI

theorem c2_referential_integrity_witness :
    create_comment exDB "nope" { content := "hey" } exUserB "c9" 60 =
      (exDB, .error (.notFound "Post not found")) ∧
    CommentsRefPosts (delete_post exDB "p1" exUserA).1 :=
  ⟨c2_referential_integrity.1 exDB "nope" { content := "hey" } exUserB "c9" 60 (by decide),
   c2_referential_integrity.2.2 exDB (delete_post exDB "p1" exUserA).1
     (Step.ofDeletePost exDB "p1" exUserA (by rfl))
     (by unfold CommentsRefPosts; decide)⟩

/-- C4: a successful registration returns a token whose embedded subject is
the new user identifier; `verify_token` recovers that identifier at any time
before expiry, and the Authorization Guard applied to the returned token on
the post-registration store resolves to the newly created user (credential
functions modelled from the spec, middleware not in the sources). -/
theorem c4_register_token_round_trip (db : DB) (ud : UserCreate) (user_id : String)
    (salt secret ttl now : Nat) (db' : DB) (tok : Token)
    (hreg : register db ud user_id salt secret ttl now = (db', .ok tok)) :
    tok.access_token.payload.sub = user_id ∧
    tok.user.id = user_id ∧
    (∀ now2 : Nat, now2 < now + ttl * 60 →
      verify_token secret now2 tok.access_token = .ok user_id) ∧
    ((∀ u ∈ db.users, u.id ≠ user_id) → ∀ now2 : Nat, now2 < now + ttl * 60 →
      get_current_user secret now2 db' tok.access_token =
        .ok (regUser ud user_id salt now)) := by
  cases hfind : db.findUserByEmail ud.email with
  | some w =>
    rw [register_conflict user_id salt secret ttl now hfind] at hreg
    injection hreg with h1 h2
    injection h2
  | none =>
    rw [register_fresh user_id salt secret ttl now hfind] at hreg
    injection hreg with h1 h2
    injection h2 with h3
    subst h1
    subst h3
    refine ⟨rfl, rfl, ?_, ?_⟩
    · intro now2 hlt
      simp [verify_token, create_access_token, sign, hlt]
    · intro hfresh now2 hlt
      have hv : verify_token secret now2 (create_access_token secret ttl now user_id) =
          .ok user_id := by
        simp [verify_token, create_access_token, sign, hlt]
      show get_current_user secret now2 _ (create_access_token secret ttl now user_id) = _
      unfold get_current_user
      have hN : db.users.find? (fun v => v.id == user_id) = none := by
        rw [List.find?_eq_none]
        intro x hx
        simpa using hfresh x hx
      have hfound : ({ db with users := db.users ++ [regUser ud user_id salt now] } : DB).findUser
          user_id = some (regUser ud user_id salt now) := by
        show (db.users ++ [regUser ud user_id salt now]).find? (fun v => v.id == user_id) = _
        rw [List.find?_append, hN]
        simp [regUser]
      simp only [hv, hfound]

theorem c4_register_token_round_trip_witness :
    get_current_user 5 200
        ({ exDB with users := exDB.users ++
            [regUser { email := "c@x.com", name := "Carol", password := "secret3" } "u3" 9 100] })
        (create_access_token 5 1440 100 "u3") =
      .ok (regUser { email := "c@x.com", name := "Carol", password := "secret3" } "u3" 9 100) := by
  have h := c4_register_token_round_trip exDB
      { email := "c@x.com", name := "Carol", password := "secret3" } "u3" 9 5 1440 100
      ({ exDB with users := exDB.users ++
          [regUser { email := "c@x.com", name := "Carol", password := "secret3" } "u3" 9 100] })
      { access_token := create_access_token 5 1440 100 "u3",
        user := userResponseOf (regUser { email := "c@x.com", name := "Carol", password := "secret3" } "u3" 9 100) }
      (by rfl)
  exact h.2.2.2 (by decide) 200 (by decide)

/-- C7: an author update of an existing post stores exactly the provided
fields, refreshes `updated_at`, and leaves the identifier, author, creation
timestamp, each omitted field, the other rows and the other tables
unchanged; the response is the view of the updated row. -/
theorem c7_update_post_frame (db : DB) (pid : String) (pd : PostUpdate) (u : User)
    (now : Nat) (r : Post) (hf : db.findPost pid = some r) (ha : u.id = r.author_id) :
    (update_post db pid pd u now).2 =
      .ok (postResponseOf (update_post db pid pd u now).1 (applyPostUpdate r pd now)) ∧
    (update_post db pid pd u now).1.findPost pid = some (applyPostUpdate r pd now) ∧
    (update_post db pid pd u now).1.users = db.users ∧
    (update_post db pid pd u now).1.comments = db.comments ∧
    (∀ q ∈ db.posts, q.id ≠ r.id → q ∈ (update_post db pid pd u now).1.posts) ∧
    (applyPostUpdate r pd now).id = r.id ∧
    (applyPostUpdate r pd now).author_id = r.author_id ∧
    (applyPostUpdate r pd now).created_at = r.created_at ∧
    (applyPostUpdate r pd now).updated_at = now ∧
    (∀ t, pd.title = some t → (applyPostUpdate r pd now).title = t) ∧
    (pd.title = none → (applyPostUpdate r pd now).title = r.title) ∧
    (∀ s, pd.content = some s → (applyPostUpdate r pd now).content = s) ∧
    (pd.content = none → (applyPostUpdate r pd now).content = r.content) ∧
    (∀ s, pd.excerpt = some s → (applyPostUpdate r pd now).excerpt = some s) ∧
    (pd.excerpt = none → (applyPostUpdate r pd now).excerpt = r.excerpt) ∧
    (∀ s, pd.category = some s → (applyPostUpdate r pd now).category = some s) ∧
    (pd.category = none → (applyPostUpdate r pd now).category = r.category) := by
  rw [update_post_found pd u now hf, if_pos ha.symm]
  refine ⟨rfl, ?_, rfl, rfl, ?_, rfl, rfl, rfl, rfl, ?_, ?_, ?_, ?_, ?_, ?_, ?_, ?_⟩
  · show ({ db with posts := db.posts.map (fun q => if q.id == r.id then applyPostUpdate r pd now else q) } : DB).findPost pid = some (applyPostUpdate r pd now)
    unfold DB.findPost
    exact find?_replace_post hf rfl
  · intro q hq hne
    exact List.mem_map.mpr ⟨q, hq, by simp [hne]⟩
  · intro t ht
    simp [applyPostUpdate, ht]
  · intro ht
    simp [applyPostUpdate, ht]
  · intro s hs
    simp [applyPostUpdate, hs]
  · intro hs
    simp [applyPostUpdate, hs]
  · intro s hs
    simp [applyPostUpdate, hs]
  · intro hs
    simp [applyPostUpdate, hs]
  · intro s hs
    simp [applyPostUpdate, hs]
  · intro hs
    simp [applyPostUpdate, hs]

theorem c7_update_post_frame_witness :
    (update_post exDB "p1" { title := some "New", content := none, excerpt := some "Ex", category := none } exUserA 50).1.findPost "p1" =
      some (applyPostUpdate exPost { title := some "New", content := none, excerpt := some "Ex", category := none } 50) ∧
    (applyPostUpdate exPost { title := some "New", content := none, excerpt := some "Ex", category := none } 50).updated_at = 50 :=
  ⟨(c7_update_post_frame exDB "p1" { title := some "New", content := none, excerpt := some "Ex", category := none } exUserA 50 exPost (by rfl) rfl).2.1,
   (c7_update_post_frame exDB "p1" { title := some "New", content := none, excerpt := some "Ex", category := none } exUserA 50 exPost (by rfl) rfl).2.2.2.2.2.2.2.2.1⟩

/-- C10: an author update with an absent (`None`) excerpt or category leaves
that stored field unchanged, so a non-null excerpt or category can never be
reset to null through update. -/
theorem c10_update_keeps_optional_fields (db : DB) (pid : String) (pd : PostUpdate)
    (u : User) (now : Nat) (r : Post) (hf : db.findPost pid = some r)
    (ha : u.id = r.author_id) :
    (update_post db pid pd u now).1.findPost pid = some (applyPostUpdate r pd now) ∧
    (pd.excerpt = none → (applyPostUpdate r pd now).excerpt = r.excerpt) ∧
    (pd.category = none → (applyPostUpdate r pd now).category = r.category) ∧
    (r.excerpt.isSome → (applyPostUpdate r pd now).excerpt.isSome) ∧
    (r.category.isSome → (applyPostUpdate r pd now).category.isSome) := by
  refine ⟨?_, fun he => ?_, fun hc => ?_, fun hse => ?_, fun hsc => ?_⟩
  · rw [update_post_found pd u now hf, if_pos ha.symm]
    show ({ db with posts := db.posts.map (fun q => if q.id == r.id then applyPostUpdate r pd now else q) } : DB).findPost pid = some (applyPostUpdate r pd now)
    unfold DB.findPost
    exact find?_replace_post hf rfl
  · simp [applyPostUpdate, he]
  · simp [applyPostUpdate, hc]
  · cases hpe : pd.excerpt with
    | some e => simp [applyPostUpdate, hpe]
    | none =>
      simp [applyPostUpdate, hpe]
      exact hse
  · cases hpc : pd.category with
    | some e => simp [applyPostUpdate, hpc]
    | none =>
      simp [applyPostUpdate, hpc]
      exact hsc

theorem c10_update_keeps_optional_fields_witness :
    (applyPostUpdate exPost { title := some "New", content := none, excerpt := none, category := none } 50).excerpt = exPost.excerpt ∧
    (applyPostUpdate exPost { title := some "New", content := none, excerpt := none, category := none } 50).category = exPost.category :=
  ⟨(c10_update_keeps_optional_fields exDB "p1" { title := some "New", content := none, excerpt := none, category := none } exUserA 50 exPost (by rfl) rfl).2.1 rfl,
   (c10_update_keeps_optional_fields exDB "p1" { title := some "New", content := none, excerpt := none, category := none } exUserA 50 exPost (by rfl) rfl).2.2.1 rfl⟩

/-- C8 fails as stated: on the example store the view returned by
`get_post_by_id` carries `author_profile_picture = none` although the
author's stored profile picture is `some "pic.png"`. -/
theorem c8_counterexample :
    get_post_by_id exDB "p1" = .ok (postResponseOf exDB exPost) ∧
    (postResponseOf exDB exPost).author_profile_picture = none ∧
    exDB.findUser exPost.author_id = some exUserA ∧
    exUserA.profile_picture = some "pic.png" ∧
    (postResponseOf exDB exPost).author_profile_picture ≠ exUserA.profile_picture :=
  ⟨rfl, rfl, by rfl, rfl, by decide⟩

/-- C8 amended: every post view from Create, ListAll and GetById embeds the
author's current stored name, while `author_profile_picture` is always
`none` in post views regardless of the author's stored picture (the post
handlers never pass it; only comment views embed it). -/
theorem c8_post_views_embed_name_not_picture :
    (∀ (db : DB) (pd : PostCreate) (u : User) (pid : String) (now : Nat),
       (create_post db pd u pid now).2.author_name = u.name ∧
       (create_post db pd u pid now).2.author_profile_picture = none) ∧
    (∀ (db : DB) (res : PostResponse), res ∈ get_all_posts db →
       res.author_profile_picture = none ∧
       ∃ p ∈ db.posts, res = postResponseOf db p) ∧
    (∀ (db : DB) (pid : String) (r : Post), db.findPost pid = some r →
       get_post_by_id db pid = .ok (postResponseOf db r)) ∧
    (∀ (db : DB) (p : Post),
       (postResponseOf db p).author_profile_picture = none ∧
       ∀ u', db.findUser p.author_id = some u' →
         (postResponseOf db p).author_name = u'.name) := by
  refine ⟨?_, ?_, ?_, ?_⟩
  · intro db pd u pid now
    exact ⟨rfl, rfl⟩
  · intro db res hres
    obtain ⟨p, hp, rfl⟩ := List.mem_map.mp hres
    have hpm : p ∈ db.posts :=
      ((List.perm_insertionSort createdDesc db.posts).mem_iff).mp hp
    exact ⟨rfl, p, hpm, rfl⟩
  · intro db pid r hf
    unfold get_post_by_id
    rw [hf]
  · intro db p
    refine ⟨rfl, fun u' hu' => ?_⟩
    show DB.authorName db p.author_id = u'.name
    unfold DB.authorName
    rw [hu']

theorem c8_post_views_embed_name_not_picture_witness :
    get_post_by_id exDB "p1" = .ok (postResponseOf exDB exPost) ∧
    (postResponseOf exDB exPost).author_name = exUserA.name :=
  ⟨c8_post_views_embed_name_not_picture.2.2.1 exDB "p1" exPost (by rfl),
   (c8_post_views_embed_name_not_picture.2.2.2 exDB exPost).2 exUserA (by rfl)⟩

end BlogApp
